import Mathlib

/-!
# Jelly Telegram Bot — Identity Linking & Subscription Lifecycle Engine

Shallow embedding of the core state and operations of
`jelly_admin_with_upi.py` (main revision, and where noted the `app/`
revision), together with proofs and refutations of the specification
claims about it.

Python `dict`s are modelled as association lists (`AMap`) with
insert-or-replace-in-place semantics, matching CPython's dict update
behaviour.  Telegram ids are modelled as `Int` (the code stores them as
Python ints and keys maps by `str(tg_id)`; `str` is injective on ints, so
keying by the int itself is a faithful renaming).  Jellyfin user ids are
`String`.  Wall-clock times (`time.time()` floats) are modelled as `Int`
epoch seconds: every operation modelled here only adds whole-second
durations and compares clock values, so the integer clock is faithful
for these properties (and evaluates inside the kernel).
Persistence (`save_json` / `safe_file_save`) only mirrors the in-memory
tables to disk and never changes them, so it is not represented in the
state transitions.  Chat sends and log lines are represented, where a
claim needs them, by explicit call/notice lists returned next to the new
state.
-/

/-- Association map: a Python `dict`.  Keys may repeat in the raw list;
all states built by the operations below keep keys distinct. -/
abbrev AMap (K V : Type) : Type := List (K × V)

variable {K V : Type} [DecidableEq K]

/-- `d.get(k)` / `d[k]`. -/
def lookupA : AMap K V → K → Option V
  | [], _ => none
  | (k', v') :: rest, k => if k' = k then some v' else lookupA rest k

/-- `d[k] = v`: replace in place if the key is present, else append (CPython
dict insertion-order semantics). -/
def insertA : AMap K V → K → V → AMap K V
  | [], k, v => [(k, v)]
  | (k', v') :: rest, k, v =>
      if k' = k then (k, v) :: rest else (k', v') :: insertA rest k v

/-- `d.pop(k, None)`. -/
def eraseA : AMap K V → K → AMap K V
  | [], _ => []
  | (k', v') :: rest, k => if k' = k then eraseA rest k else (k', v') :: eraseA rest k

/-- The keys of the map, in order. -/
def keysA (m : AMap K V) : List K := m.map Prod.fst

/-- `k in d`. -/
def containsA (m : AMap K V) (k : K) : Bool := (lookupA m k).isSome

/-! ## Data model

Mirrors the record shapes in `jelly_admin_with_upi.py`.  Fields that no
modelled operation reads (`created_at`, the `jellyfin_id` mirror of the
key, the optional display `name`) are omitted. -/

/-- `ROLE_ADMIN` / `ROLE_PRIVILEGED` / `ROLE_REGULAR`. -/
inductive Role
  | admin
  | privileged
  | regular
  deriving DecidableEq, Repr

/-- One record of `users.json`, keyed by the Jellyfin user id. -/
structure UserRec where
  username : String
  telegram_id : Option Int
  is_admin : Bool
  role : Role
  deriving DecidableEq, Repr

/-- One record of `subscriptions.json`. -/
structure SubRec where
  activated_at : Int
  expires_at : Int
  duration_days : Int
  deriving DecidableEq, Repr

/-- The workflow kind of a pending request.  In the Python data a
register entry simply has no `"type"` field, a link entry has
`"type": "link"`, an unlink entry `"type": "unlink"`; the guards compare
`p.get("type")` against those strings, which is what `kind` captures. -/
inductive PendKind
  | register
  | link
  | unlink
  deriving DecidableEq, Repr

/-- One record of `pending.json`, keyed by the requester's telegram id. -/
structure PendingRec where
  username : String
  requested_at : Int
  kind : PendKind
  /-- Only present on link requests: the target Jellyfin account. -/
  jellyfin_user_id : Option String
  deriving DecidableEq, Repr

/-- The in-memory tables of the bot (the module-level dicts
`users`, `telegram_to_userid`, `username_to_uid`, `subscriptions`,
`pending`, `awaiting_username`, `broadcast_mode`, `target_broadcast`). -/
structure BotState where
  users : AMap String UserRec
  telegram_to_userid : AMap Int String
  username_to_uid : AMap String String
  subscriptions : AMap String SubRec
  pending : AMap Int PendingRec
  /-- `awaiting_username[tg_id] = {name, ...}`; we keep the stored name. -/
  awaiting_username : AMap Int String
  broadcast_mode : AMap Int Bool
  target_broadcast : AMap Int String
  deriving DecidableEq, Repr

/-- Results of the external Jellyfin calls made during one decision step
(`jellyfin_create_user`, `jellyfin_get_user_id`, `jellyfin_disable_user`,
`jellyfin_enable_user`).  The engine only branches on success/failure. -/
structure JellyEnv where
  createOk : Bool
  newUserId : Option String
  disableOk : Bool
  enableOk : Bool

/-- Trace entry for a call into the Jellyfin client. -/
inductive ExtCall
  | createUser (username : String)
  | getUserId (username : String)
  | disableUser (username : String)
  | enableUser (username : String)
  deriving DecidableEq, Repr

/-- `get_user_by_telegram_id`: mapping lookup, then registry lookup. -/
def get_user_by_telegram_id (st : BotState) (tg : Int) : Option (String × UserRec) :=
  match lookupA st.telegram_to_userid tg with
  | none => none
  | some uid =>
      match lookupA st.users uid with
      | some u => some (uid, u)
      | none => none

/-- CPython `str.lower()` restricted to the per-character case mapping
(usernames here are ASCII).  Defined by structural recursion on the
character list so that it evaluates inside the kernel. -/
def pyLower (s : String) : String := String.mk (s.data.map Char.toLower)

/-- `get_user_by_username`: lowercase-username index, then registry. -/
def get_user_by_username (st : BotState) (name : String) : Option (String × UserRec) :=
  match lookupA st.username_to_uid (pyLower name) with
  | none => none
  | some uid =>
      match lookupA st.users uid with
      | some u => some (uid, u)
      | none => none

/-- `SECONDS_PER_DAY`. -/
def SECONDS_PER_DAY : Int := 86400

/-! ## Subscription ledger (`check_subscription_status`, `activate_subscription`,
`handle_subextend`) -/

/-- `check_subscription_status(user_id)`: permanent-access short-circuit
for admin/privileged, otherwise active iff a ledger entry exists with
`expires_at > now`. -/
def check_subscription_status (st : BotState) (now : Int) (user_id : String) :
    Bool × Option Int :=
  match lookupA st.users user_id with
  | some u =>
      if u.role = Role.admin ∨ u.role = Role.privileged then (true, none)
      else
        match lookupA st.subscriptions user_id with
        | none => (false, none)
        | some sub => if now < sub.expires_at then (true, some sub.expires_at) else (false, none)
  | none =>
      match lookupA st.subscriptions user_id with
      | none => (false, none)
      | some sub => if now < sub.expires_at then (true, some sub.expires_at) else (false, none)

/-- The two `raise ValueError` cases of `activate_subscription`. -/
inductive ActError
  | invalidDuration
  | unknownUser
  deriving DecidableEq, Repr

/-- The base the new expiry is computed from: the existing expiry if it
is still in the future, else now (`activate_subscription`, lines 957–962). -/
def activeBase (st : BotState) (user_id : String) (now : Int) : Int :=
  match lookupA st.subscriptions user_id with
  | some s => if now < s.expires_at then s.expires_at else now
  | none => now

/-- `activate_subscription(user_id, duration_days)`.  Returns the new
state, the value returned to the caller (`None` for admin/privileged),
and the Jellyfin calls issued.  The ledger write happens before and
regardless of the outcome of the `jellyfin_enable_user` call. -/
def activate_subscription (st : BotState) (now : Int) (user_id : String)
    (duration_days : Int) :
    Except ActError (BotState × Option Int × List ExtCall) :=
  if duration_days ≤ 0 then Except.error ActError.invalidDuration
  else
    match lookupA st.users user_id with
    | none => Except.error ActError.unknownUser
    | some u =>
        if u.role = Role.admin ∨ u.role = Role.privileged then
          Except.ok (st, none, [])
        else
          let seconds_to_add : Int := duration_days * SECONDS_PER_DAY
          let new_expiry : Int := activeBase st user_id now + seconds_to_add
          let newSub : SubRec := SubRec.mk now new_expiry duration_days
          let st' : BotState :=
            { st with subscriptions := insertA st.subscriptions user_id newSub }
          Except.ok (st', some new_expiry, [ExtCall.enableUser u.username])

/-- `/subextend <username> <days>` (admin only; the admin gate and the
argument parsing happen in the caller and are not part of the ledger
logic).  Days ≤ 0 is rejected by the `int` parse guard. -/
def handle_subextend (st : BotState) (now : Int) (uname : String) (days : Int) :
    BotState × Option Int :=
  if days ≤ 0 then (st, none)
  else
    match get_user_by_username st uname with
    | none => (st, none)
    | some (target_uid, u) =>
        if u.role = Role.admin ∨ u.role = Role.privileged then (st, none)
        else
          let seconds_to_add : Int := days * SECONDS_PER_DAY
          let new_expiry : Int := activeBase st target_uid now + seconds_to_add
          let act : Int :=
            match lookupA st.subscriptions target_uid with
            | some s => s.activated_at
            | none => now
          let newSub : SubRec := SubRec.mk act new_expiry days
          ({ st with subscriptions := insertA st.subscriptions target_uid newSub },
           some new_expiry)

/-! ## Approval Coordinator: the `action == "approve"` branch of
`handle_update` (registration approval, run under `approval_lock`). -/

/-- Outcome of one `approve` decision.  `invalid telegram ID format`
cannot arise here because the model keys callbacks by `Int` already. -/
inductive ApproveOutcome
  | alreadyProcessed
  | alreadyApproved
  | createFailed
  | getIdFailed
  | approved (jellyfin_id : String) (disableFailed : Bool)
  deriving DecidableEq, Repr

/-- The `approve:<uid>` decision step.  Mirrors lines 1991–2074:
re-fetch the pending entry; short-circuit if absent; pop-and-report if a
user with that telegram id already exists; create the Jellyfin account,
fetch its id, attempt to disable it (continuing on disable failure);
insert the user, update both mappings, remove the pending entry. -/
def approve (st : BotState) (env : JellyEnv) (uid : Int) :
    BotState × ApproveOutcome × List ExtCall :=
  match lookupA st.pending uid with
  | none => (st, ApproveOutcome.alreadyProcessed, [])
  | some p =>
      match get_user_by_telegram_id st uid with
      | some _ =>
          ({ st with pending := eraseA st.pending uid },
           ApproveOutcome.alreadyApproved, [])
      | none =>
          if env.createOk = false then
            (st, ApproveOutcome.createFailed, [ExtCall.createUser p.username])
          else
            match env.newUserId with
            | none =>
                (st, ApproveOutcome.getIdFailed,
                 [ExtCall.createUser p.username, ExtCall.getUserId p.username])
            | some jellyfin_id =>
                let newUser : UserRec :=
                  { username := p.username, telegram_id := some uid,
                    is_admin := false, role := Role.regular }
                let st' : BotState :=
                  { st with
                      users := insertA st.users jellyfin_id newUser,
                      telegram_to_userid := insertA st.telegram_to_userid uid jellyfin_id,
                      username_to_uid :=
                        insertA st.username_to_uid (pyLower p.username) jellyfin_id,
                      pending := eraseA st.pending uid }
                (st', ApproveOutcome.approved jellyfin_id (env.disableOk = false),
                 [ExtCall.createUser p.username, ExtCall.getUserId p.username,
                  ExtCall.disableUser p.username])

/-! ## Request Ledger handlers (`handle_register`, username submission,
`handle_linkme`, `handle_unlinkme`, `handle_admin_link`,
`handle_admin_unlink`, the `link_approve`/`unlink_approve` callbacks, and
`/cancel`). -/

inductive RegisterOutcome
  | alreadyRegistered
  | alreadyPending
  | promptUsername
  deriving DecidableEq, Repr

/-- `/register` (lines 1141–1169). -/
def handle_register (st : BotState) (tg : Int) (first_name : String) :
    BotState × RegisterOutcome :=
  match get_user_by_telegram_id st tg with
  | some _ => (st, RegisterOutcome.alreadyRegistered)
  | none =>
      match lookupA st.pending tg with
      | some _ => (st, RegisterOutcome.alreadyPending)
      | none =>
          ({ st with awaiting_username := insertA st.awaiting_username tg first_name },
           RegisterOutcome.promptUsername)

/-- The awaiting-username text handler (lines 2371–2432), with the regex
validity and Jellyfin availability checks as external booleans.  On
success the awaiting entry becomes a pending register entry (which, in
the stored dict, has no `"type"` field). -/
def submit_username (st : BotState) (now : Int) (tg : Int) (uname : String)
    (validOk availableOk : Bool) : BotState × Bool :=
  match lookupA st.awaiting_username tg with
  | none => (st, false)
  | some _ =>
      if validOk = false then (st, false)
      else if availableOk = false then (st, false)
      else
        let entry : PendingRec := PendingRec.mk uname now PendKind.register none
        ({ st with
            awaiting_username := eraseA st.awaiting_username tg,
            pending := insertA st.pending tg entry },
         true)

inductive LinkmeOutcome
  | alreadyLinked
  | alreadyPending
  | userNotFound
  | targetAlreadyLinked
  | submitted
  deriving DecidableEq, Repr

/-- `/linkme <username>` (lines 1699–1758). -/
def handle_linkme (st : BotState) (now : Int) (tg : Int) (uname : String) :
    BotState × LinkmeOutcome :=
  match get_user_by_telegram_id st tg with
  | some _ => (st, LinkmeOutcome.alreadyLinked)
  | none =>
      match lookupA st.pending tg with
      | some _ => (st, LinkmeOutcome.alreadyPending)
      | none =>
          match get_user_by_username st uname with
          | none => (st, LinkmeOutcome.userNotFound)
          | some (target_uid, target) =>
              if target.telegram_id ≠ none then (st, LinkmeOutcome.targetAlreadyLinked)
              else
                let entry : PendingRec :=
                  PendingRec.mk uname now PendKind.link (some target_uid)
                ({ st with pending := insertA st.pending tg entry },
                 LinkmeOutcome.submitted)

inductive UnlinkmeOutcome
  | notLinked
  | alreadyPendingUnlink
  | submitted
  deriving DecidableEq, Repr

/-- `/unlinkme` (lines 1760–1804).  NOTE the guard: it only rejects when
the existing pending entry has `type == "unlink"`; a pending entry of any
other kind is silently overwritten by the new unlink request. -/
def handle_unlinkme (st : BotState) (now : Int) (tg : Int) :
    BotState × UnlinkmeOutcome :=
  match get_user_by_telegram_id st tg with
  | none => (st, UnlinkmeOutcome.notLinked)
  | some (_, u) =>
      let isPendingUnlink : Bool :=
        match lookupA st.pending tg with
        | some p => p.kind = PendKind.unlink
        | none => false
      if isPendingUnlink then (st, UnlinkmeOutcome.alreadyPendingUnlink)
      else
        let entry : PendingRec := PendingRec.mk u.username now PendKind.unlink none
        ({ st with pending := insertA st.pending tg entry },
         UnlinkmeOutcome.submitted)

inductive AdminLinkOutcome
  | userNotFound
  | alreadyLinked
  | telegramInUse
  | linked
  deriving DecidableEq, Repr

/-- `/link <username> <telegram_id>` (admin only, lines 1806–1863; the
admin gate and `int` parse happen before the logic modelled here). -/
def handle_admin_link (st : BotState) (uname : String) (tg : Int) :
    BotState × AdminLinkOutcome :=
  match get_user_by_username st uname with
  | none => (st, AdminLinkOutcome.userNotFound)
  | some (target_uid, target) =>
      if target.telegram_id ≠ none then (st, AdminLinkOutcome.alreadyLinked)
      else
        match get_user_by_telegram_id st tg with
        | some _ => (st, AdminLinkOutcome.telegramInUse)
        | none =>
            let target' : UserRec := { target with telegram_id := some tg }
            ({ st with
                users := insertA st.users target_uid target',
                telegram_to_userid := insertA st.telegram_to_userid tg target_uid },
             AdminLinkOutcome.linked)

inductive AdminUnlinkOutcome
  | userNotFound
  | notLinked
  | unlinked
  deriving DecidableEq, Repr

/-- `/unlink <username>` (admin only, lines 1865–1907). -/
def handle_admin_unlink (st : BotState) (uname : String) :
    BotState × AdminUnlinkOutcome :=
  match get_user_by_username st uname with
  | none => (st, AdminUnlinkOutcome.userNotFound)
  | some (target_uid, target) =>
      match target.telegram_id with
      | none => (st, AdminUnlinkOutcome.notLinked)
      | some old_tg =>
          let target' : UserRec := { target with telegram_id := none }
          ({ st with
              users := insertA st.users target_uid target',
              telegram_to_userid := eraseA st.telegram_to_userid old_tg },
           AdminUnlinkOutcome.unlinked)

inductive LinkApproveOutcome
  | notFound
  | notALinkRequest
  | targetGone
  | targetAlreadyLinked
  | linked
  deriving DecidableEq, Repr

/-- The `link_approve:<uid>` callback (lines 2208–2279).  NOTE: it
re-checks that the *target* account still exists and is unlinked, but it
does not re-check whether the requesting telegram id has become linked to
some other account while the request was pending. -/
def link_approve (st : BotState) (uid : Int) : BotState × LinkApproveOutcome :=
  match lookupA st.pending uid with
  | none => (st, LinkApproveOutcome.notFound)
  | some p =>
      if p.kind ≠ PendKind.link then (st, LinkApproveOutcome.notALinkRequest)
      else
        match p.jellyfin_user_id with
        | none => (st, LinkApproveOutcome.targetGone)
        | some jellyfin_user_id =>
            match lookupA st.users jellyfin_user_id with
            | none =>
                ({ st with pending := eraseA st.pending uid },
                 LinkApproveOutcome.targetGone)
            | some target =>
                if target.telegram_id ≠ none then
                  ({ st with pending := eraseA st.pending uid },
                   LinkApproveOutcome.targetAlreadyLinked)
                else
                  let target' : UserRec := { target with telegram_id := some uid }
                  ({ st with
                      users := insertA st.users jellyfin_user_id target',
                      telegram_to_userid := insertA st.telegram_to_userid uid jellyfin_user_id,
                      pending := eraseA st.pending uid },
                   LinkApproveOutcome.linked)

inductive UnlinkApproveOutcome
  | userNotFound
  | unlinked
  deriving DecidableEq, Repr

/-- The `unlink_approve:<uid>` callback (lines 2292–2330). -/
def unlink_approve (st : BotState) (uid : Int) : BotState × UnlinkApproveOutcome :=
  match get_user_by_telegram_id st uid with
  | none =>
      ({ st with pending := eraseA st.pending uid },
       UnlinkApproveOutcome.userNotFound)
  | some (user_id, u) =>
      let u' : UserRec := { u with telegram_id := none }
      ({ st with
          users := insertA st.users user_id u',
          telegram_to_userid := eraseA st.telegram_to_userid uid,
          pending := eraseA st.pending uid },
       UnlinkApproveOutcome.unlinked)

/-- The `/cancel` command (lines 2577–2583): clears broadcast mode,
broadcast target and the awaiting-username entry for the requester.  It
does not touch the pending-request table. -/
def handle_cancel (st : BotState) (tg : Int) : BotState :=
  { st with
      broadcast_mode := eraseA st.broadcast_mode tg,
      target_broadcast := eraseA st.target_broadcast tg,
      awaiting_username := eraseA st.awaiting_username tg }

/-! ## Expiry Monitor (`subscription_monitor_loop`, one pass), in both
revisions.  `env username` is the result of `jellyfin_disable_user`. -/

/-- Accumulated effect of one monitor pass: the new state, the usernames
for which a Jellyfin disable call was issued, and the telegram ids that
were sent an expiry notification. -/
structure PassAcc where
  state : BotState
  disables : List String
  notices : List Int
  deriving DecidableEq, Repr

/-- The snapshot `expired_users` (lines 988–992): ids of ledger entries
with `expires_at <= current_time`, in table order. -/
def expiredKeys (subs : AMap String SubRec) (now : Int) : List String :=
  (subs.filter (fun q => q.2.expires_at ≤ now)).map Prod.fst

/-- The body of the `for user_id in expired_users` loop (lines 994–1022):
if the user exists, attempt the disable — on failure keep the entry
(`continue`), on success notify the linked chat and fall through to the
pop; if the user does not exist (orphaned entry), fall through to the pop
without any disable call. -/
def processExpiredOne (env : String → Bool) (acc : PassAcc) (uid : String) : PassAcc :=
  match lookupA acc.state.users uid with
  | some u =>
      if env u.username = false then
        { acc with disables := acc.disables ++ [u.username] }
      else
        { state :=
            { acc.state with subscriptions := eraseA acc.state.subscriptions uid },
          disables := acc.disables ++ [u.username],
          notices := acc.notices ++ u.telegram_id.toList }
  | none =>
      { acc with
          state := { acc.state with subscriptions := eraseA acc.state.subscriptions uid } }

/-- One pass of the main revision's monitor loop (lines 983–1026). -/
def monitor_pass (st : BotState) (now : Int) (env : String → Bool) : PassAcc :=
  (expiredKeys st.subscriptions now).foldl (processExpiredOne env) (PassAcc.mk st [] [])

/-- `check_subscription_status(...)[0]`. -/
def has_access (st : BotState) (now : Int) (uid : String) : Bool :=
  (check_subscription_status st now uid).1

/-- `enforce_regular_user_access` (app revision, lines 707–730): returns
the username a Jellyfin disable call is issued for, if any.  The bot
state itself is never mutated by this function. -/
def enforce_attempt (st : BotState) (now : Int) (uid : String) : Option String :=
  match lookupA st.users uid with
  | none => none
  | some u =>
      if u.role ≠ Role.regular then none
      else if has_access st now uid then none
      else some u.username

/-- One pass of the app revision's monitor loop (lines 778–827): the
expiry sweep above, followed by `enforce_regular_user_access` over every
user in the registry (lines 819–820). -/
def app_monitor_pass (st : BotState) (now : Int) (env : String → Bool) : PassAcc :=
  let base := monitor_pass st now env
  let extra := (keysA base.state.users).filterMap (enforce_attempt base.state now)
  { base with disables := base.disables ++ extra }

/-! ## Reconciliation: the startup telegram-mapping rebuild
(lines 610–651) and the admin role sync woven into the same loop. -/

/-- The telegram ids currently set on some user (`valid_telegram_ids`). -/
def validTids (users : AMap String UserRec) : List Int :=
  users.filterMap (fun p => p.2.telegram_id)

/-- Stale-mapping pruning (lines 616–622): drop entries whose telegram id
is not set on any user. -/
def removeStale (users : AMap String UserRec) (m : AMap Int String) : AMap Int String :=
  m.filter (fun q => q.1 ∈ validTids users)

/-- One iteration of the rebuild/verify loop (lines 628–636). -/
def rebuildStep (m : AMap Int String) (p : String × UserRec) : AMap Int String :=
  match p.2.telegram_id with
  | some t => if lookupA m t ≠ some p.1 then insertA m t p.1 else m
  | none => m

/-- The startup mapping rebuild: prune stale entries, then fix every
linked user's entry. -/
def rebuild_telegram_mapping (users : AMap String UserRec) (m : AMap Int String) :
    AMap Int String :=
  users.foldl rebuildStep (removeStale users m)

/-- The admin sync side of the same startup loop (lines 642–651): any
user with the `is_admin` flag and a telegram id gets `role = ROLE_ADMIN`.
(Telegram ids are nonzero, so Python truthiness of `telegram_id` is
`telegram_id is not None`.)  The subscription ledger is not touched. -/
def admin_sync_users (users : AMap String UserRec) : AMap String UserRec :=
  users.map (fun p =>
    if p.2.is_admin = true ∧ p.2.telegram_id ≠ none then
      (p.1, { p.2 with role := Role.admin })
    else p)

/-- `handle_admin_upgrade` (app revision, lines 1784–1801): one-step
promotion regular → privileged → admin.  The subscription ledger is not
touched. -/
def handle_admin_upgrade (st : BotState) (user_id : String) : BotState × Option Role :=
  match lookupA st.users user_id with
  | none => (st, none)
  | some u =>
      if u.role = Role.admin then (st, none)
      else
        let target : Role := if u.role = Role.regular then Role.privileged else Role.admin
        let u' : UserRec := { u with role := target, is_admin := decide (target = Role.admin) }
        ({ st with users := insertA st.users user_id u' }, some target)

/-- The registry's final write for mapping key `t` in the rebuild loop:
the last user (in registry order) whose telegram id is `t`, if any. -/
def writeOf : List (String × UserRec) → Int → Option String
  | [], _ => none
  | p :: rest, t =>
      match writeOf rest t with
      | some uid => some uid
      | none =>
          match p.2.telegram_id with
          | some t' => if t' = t then some p.1 else none
          | none => none

/-! ## Invariants under test -/

/-- `ChatIndex` consistency (§8 of the spec): every user's set chat-id is
indexed to that user, and every index entry points at a user that has
exactly that chat-id set. -/
def chatIndexConsistent (users : AMap String UserRec) (m : AMap Int String) : Prop :=
  (∀ p ∈ users, ∀ t ∈ p.2.telegram_id.toList, lookupA m t = some p.1) ∧
  (∀ q ∈ m, ∃ u ∈ (lookupA users q.2).toList, u.telegram_id = some q.1)

/-- The registry's keys are distinct (a Python dict guarantees this). -/
def keysNodup (m : AMap K V) : Prop := (keysA m).Nodup

/-- At most one user per telegram id (§3: "at most one user per chat-id"). -/
def tidsUnique (users : AMap String UserRec) : Prop :=
  ∀ p ∈ users, ∀ q ∈ users, ∀ t ∈ p.2.telegram_id.toList,
    t ∈ q.2.telegram_id.toList → p.1 = q.1

/-- An already-settled subscription ledger: no entry is due at `now`. -/
def settled (st : BotState) (now : Int) : Prop :=
  ∀ q ∈ st.subscriptions, now < q.2.expires_at

instance (users : AMap String UserRec) (m : AMap Int String) :
    Decidable (chatIndexConsistent users m) := by
  unfold chatIndexConsistent
  infer_instance

instance (m : AMap K V) : Decidable (keysNodup m) := by
  unfold keysNodup
  infer_instance

instance (users : AMap String UserRec) : Decidable (tidsUnique users) := by
  unfold tidsUnique
  infer_instance

instance (st : BotState) (now : Int) : Decidable (settled st now) := by
  unfold settled
  infer_instance

instance {E A : Type} [DecidableEq E] [DecidableEq A] : DecidableEq (Except E A) := fun a b =>
  match a, b with
  | Except.error e, Except.error f =>
      if h : e = f then isTrue (by rw [h]) else isFalse (by intro hc; cases hc; exact h rfl)
  | Except.error _, Except.ok _ => isFalse (by intro hc; cases hc)
  | Except.ok _, Except.error _ => isFalse (by intro hc; cases hc)
  | Except.ok v, Except.ok w =>
      if h : v = w then isTrue (by rw [h]) else isFalse (by intro hc; cases hc; exact h rfl)

/-! ## Concrete example states (used by witnesses and counterexamples) -/

/-- A pending registration request from telegram id 5 for username
`alice` (register entries carry no `"type"` field). -/
def pendReg5 : PendingRec := PendingRec.mk "alice" 0 PendKind.register none

/-- State with exactly that pending registration and nothing else. -/
def stApprove : BotState := BotState.mk [] [] [] [] [(5, pendReg5)] [] [] []

/-- All Jellyfin calls succeed; the new account id is `j1`. -/
def envOkJ : JellyEnv := JellyEnv.mk true (some "j1") true true

/-- Creation and id retrieval succeed, but the initial disable fails. -/
def envDisableFail : JellyEnv := JellyEnv.mk true (some "j1") false true

/-- Account creation itself fails. -/
def envCreateFail : JellyEnv := JellyEnv.mk false none true true

/-- The state after the first successful approval of `stApprove`. -/
def stApprove1 : BotState := (approve stApprove envOkJ 5).1

/-- A linked regular user. -/
def urBob : UserRec := UserRec.mk "bob" (some 9) false Role.regular

/-- Registry with the single regular user `bob` and no subscriptions. -/
def stSub : BotState :=
  BotState.mk [("j1", urBob)] [(9, "j1")] [("bob", "j1")] [] [] [] [] []

/-- `stSub` after `activate_subscription(j1, 5)` at time 1000. -/
def stSub1 : BotState :=
  { stSub with subscriptions := [("j1", SubRec.mk 1000 433000 5)] }

/-- A linked admin user. -/
def urAdminA : UserRec := UserRec.mk "adminA" (some 1) true Role.admin

/-- Registry with the single admin user. -/
def stAdm : BotState :=
  BotState.mk [("a1", urAdminA)] [(1, "a1")] [("admina", "a1")] [] [] [] [] []

/-- Two unlinked regular Jellyfin accounts `xuser` and `yuser`. -/
def urX : UserRec := UserRec.mk "xuser" none false Role.regular

def urY : UserRec := UserRec.mk "yuser" none false Role.regular

def stTwo : BotState :=
  BotState.mk [("jX", urX), ("jY", urY)] [] [("xuser", "jX"), ("yuser", "jY")]
    [] [] [] [] []

/-- C6 composition: telegram user 7 starts /register on `stTwo`... -/
def stC6a : BotState := (handle_register stTwo 7 "Al").1

/-- ... submits the username `al_new` (entering the pending table)... -/
def stC6b : BotState := (submit_username stC6a 10 7 "al_new" true true).1

/-- ... and an admin then links telegram 7 to the existing `yuser`. -/
def stC6c : BotState := (handle_admin_link stC6b "yuser" 7).1

/-- A linked regular user with a pending unlink request. -/
def urW : UserRec := UserRec.mk "wuser" (some 3) false Role.regular

def pendUnlinkW : PendingRec := PendingRec.mk "wuser" 0 PendKind.unlink none

def stPendW : BotState :=
  BotState.mk [("jW", urW)] [(3, "jW")] [("wuser", "jW")] [] [(3, pendUnlinkW)]
    [] [] []

/-- State with a pending request, an awaiting-username entry and
broadcast mode set for telegram id 5. -/
def stC7 : BotState :=
  BotState.mk [] [] [] [] [(5, pendReg5)] [(5, "Al")] [(5, true)] []

/-- A subscription entry that is overdue at time 100. -/
def subExpired : SubRec := SubRec.mk 0 10 1

/-- An orphaned overdue subscription: no user `ghost` exists. -/
def stOrphan : BotState := BotState.mk [] [] [] [("ghost", subExpired)] [] [] [] []

/-- A linked regular user with an overdue subscription. -/
def urCarol : UserRec := UserRec.mk "carol" (some 4) false Role.regular

def stMon : BotState :=
  BotState.mk [("jC", urCarol)] [(4, "jC")] [("carol", "jC")]
    [("jC", subExpired)] [] [] [] []

/-- A regular user with no subscription at all (app-revision backstop). -/
def stC9 : BotState :=
  BotState.mk [("jC", urCarol)] [(4, "jC")] [("carol", "jC")] [] [] [] [] []

/-- A linked regular user holding an active subscription. -/
def urDave : UserRec := UserRec.mk "dave" (some 6) false Role.regular

def subLong : SubRec := SubRec.mk 0 5000 7

def stC10 : BotState :=
  BotState.mk [("jD", urDave)] [(6, "jD")] [("dave", "jD")] [("jD", subLong)]
    [] [] [] []

/-- C2 race: telegram user 7 requests a link to `xuser`... -/
def stRace1 : BotState := (handle_linkme stTwo 10 7 "xuser").1

/-- ... an admin manually links telegram 7 to `yuser` meanwhile... -/
def stRace2 : BotState := (handle_admin_link stRace1 "yuser" 7).1

/-- ... and another admin then approves the still-pending link request. -/
def stRace3 : BotState := (link_approve stRace2 7).1

/-- A subscription entry still in the future at time 100. -/
def subFuture : SubRec := SubRec.mk 0 1000 1

/-- `carol` with a not-yet-expired subscription (settled ledger at 100). -/
def stFut : BotState :=
  BotState.mk [("jC", urCarol)] [(4, "jC")] [("carol", "jC")]
    [("jC", subFuture)] [] [] [] []

/-! ## Association-map lemmas -/

theorem lookupA_nil (k : K) : lookupA ([] : AMap K V) k = none := rfl

theorem lookupA_insert_self (m : AMap K V) (k : K) (v : V) :
    lookupA (insertA m k v) k = some v := by
  induction m with
  | nil => simp [insertA, lookupA]
  | cons p rest ih =>
      by_cases h : p.1 = k
      · simp [insertA, h, lookupA]
      · simp [insertA, h, lookupA, ih]

theorem lookupA_insert_ne (m : AMap K V) (k k' : K) (v : V) (h : k ≠ k') :
    lookupA (insertA m k v) k' = lookupA m k' := by
  induction m with
  | nil => simp [insertA, lookupA, h]
  | cons p rest ih =>
      by_cases hp : p.1 = k
      · simp [insertA, hp, lookupA, h]
      · simp only [insertA, hp, if_false, lookupA]
        by_cases hp' : p.1 = k'
        · simp [hp']
        · simp [hp', ih]

theorem lookupA_erase_self (m : AMap K V) (k : K) :
    lookupA (eraseA m k) k = none := by
  induction m with
  | nil => rfl
  | cons p rest ih =>
      by_cases h : p.1 = k
      · simpa [eraseA, h] using ih
      · simpa [eraseA, h, lookupA] using ih

theorem lookupA_erase_ne (m : AMap K V) (k k' : K) (h : k ≠ k') :
    lookupA (eraseA m k) k' = lookupA m k' := by
  induction m with
  | nil => rfl
  | cons p rest ih =>
      obtain ⟨a, b⟩ := p
      by_cases hp : a = k
      · subst hp
        simp only [eraseA, if_pos rfl, lookupA, if_neg h]
        exact ih
      · simp only [eraseA, if_neg hp, lookupA]
        by_cases hp' : a = k'
        · simp [hp']
        · simp only [if_neg hp']
          exact ih

theorem eraseA_idem (m : AMap K V) (k : K) :
    eraseA (eraseA m k) k = eraseA m k := by
  induction m with
  | nil => rfl
  | cons p rest ih =>
      obtain ⟨a, b⟩ := p
      by_cases h : a = k
      · simpa [eraseA, h] using ih
      · simp only [eraseA, if_neg h]
        rw [ih]

theorem lookupA_eq_some_of_mem (m : AMap K V) (p : K × V)
    (hnd : (keysA m).Nodup) (hm : p ∈ m) : lookupA m p.1 = some p.2 := by
  induction m with
  | nil => cases hm
  | cons q rest ih =>
      rcases List.mem_cons.mp hm with h | h
      · subst h; simp [lookupA]
      · have hq : q.1 ≠ p.1 := by
          intro hcontra
          have : p.1 ∈ keysA rest := List.mem_map_of_mem Prod.fst h
          rw [← hcontra] at this
          exact (List.nodup_cons.mp hnd).1 this
        simp only [lookupA, hq, if_false]
        exact ih (List.nodup_cons.mp hnd).2 h

theorem mem_of_lookupA_eq_some (m : AMap K V) (k : K) (v : V)
    (h : lookupA m k = some v) : (k, v) ∈ m := by
  induction m with
  | nil => simp [lookupA] at h
  | cons q rest ih =>
      by_cases hq : q.1 = k
      · simp only [lookupA, hq, if_true, Option.some.injEq] at h
        apply List.mem_cons.mpr
        left
        cases q
        simp_all
      · simp only [lookupA, hq, if_false] at h
        exact List.mem_cons_of_mem _ (ih h)



/-! ## Helper lemmas about the lookup helpers -/

theorem get_user_by_username_users (st : BotState) (n : String) (uid : String)
    (u : UserRec) (h : get_user_by_username st n = some (uid, u)) :
    lookupA st.users uid = some u := by
  unfold get_user_by_username at h
  cases hm : lookupA st.username_to_uid (pyLower n) with
  | none => simp [hm] at h
  | some uid' =>
      cases hu : lookupA st.users uid' with
      | none => simp [hm, hu] at h
      | some u' =>
          simp only [hm, hu, Option.some.injEq, Prod.mk.injEq] at h
          obtain ⟨h1, h2⟩ := h
          subst h1; subst h2
          exact hu

theorem get_user_by_telegram_id_spec (st : BotState) (tg : Int) (uid : String)
    (u : UserRec) (h : get_user_by_telegram_id st tg = some (uid, u)) :
    lookupA st.telegram_to_userid tg = some uid ∧ lookupA st.users uid = some u := by
  unfold get_user_by_telegram_id at h
  cases hm : lookupA st.telegram_to_userid tg with
  | none => simp [hm] at h
  | some uid' =>
      cases hu : lookupA st.users uid' with
      | none => simp [hm, hu] at h
      | some u' =>
          simp only [hm, hu, Option.some.injEq, Prod.mk.injEq] at h
          obtain ⟨h1, h2⟩ := h
          exact ⟨by rw [h1], by rw [← h1, hu, h2]⟩

theorem get_user_by_telegram_id_none (st : BotState) (tg : Int) (uid : String)
    (h : get_user_by_telegram_id st tg = none)
    (hm : lookupA st.telegram_to_userid tg = some uid) :
    lookupA st.users uid = none := by
  unfold get_user_by_telegram_id at h
  cases hu : lookupA st.users uid with
  | none => rfl
  | some u' => simp [hm, hu] at h

/-! ## C1: approval race safety -/

theorem approve_pending_of_approved (st : BotState) (env : JellyEnv) (uid : Int)
    (st1 : BotState) (jid : String) (w : Bool) (cs : List ExtCall)
    (h : approve st env uid = (st1, ApproveOutcome.approved jid w, cs)) :
    st1.pending = eraseA st.pending uid := by
  revert h
  unfold approve
  cases hp : lookupA st.pending uid with
  | none => intro h; simp at h
  | some p =>
      cases hg : get_user_by_telegram_id st uid with
      | some q => intro h; simp at h
      | none =>
          cases hc : env.createOk with
          | false => intro h; simp at h
          | true =>
              cases hn : env.newUserId with
              | none => intro h; simp at h
              | some jid' =>
                  intro h
                  have h1 := congrArg (fun x => x.1.pending) h
                  simpa using h1.symm

/-- C1: once a pending request has been resolved by one successful
approval, a subsequent `approve` for the same key re-fetches the pending
entry, finds it absent, answers `AlreadyProcessed`, leaves the state
untouched, and issues no Jellyfin calls (so no duplicate account is
created and no subscription is activated). -/
theorem approve_second_call_already_processed (st : BotState)
    (env env' : JellyEnv) (uid : Int) (st1 : BotState) (jid : String)
    (w : Bool) (cs : List ExtCall)
    (h : approve st env uid = (st1, ApproveOutcome.approved jid w, cs)) :
    approve st1 env' uid = (st1, ApproveOutcome.alreadyProcessed, []) := by
  have hp : st1.pending = eraseA st.pending uid :=
    approve_pending_of_approved st env uid st1 jid w cs h
  unfold approve
  rw [hp, lookupA_erase_self]

/-- Witness for C1 at a concrete run. -/
theorem approve_second_call_already_processed_witness :
    approve stApprove1 envOkJ 5 = (stApprove1, ApproveOutcome.alreadyProcessed, []) :=
  approve_second_call_already_processed stApprove envOkJ envOkJ 5 stApprove1
    "j1" false
    [ExtCall.createUser "alice", ExtCall.getUserId "alice", ExtCall.disableUser "alice"]
    (by decide)

/-! ## C3: abort-before-mutation on external failure -/

/-- C3 (amended): if the account-creation call or the account-id
retrieval fails during the approval decision step, the step aborts with
no state mutation at all — registry, subscription ledger and
pending-request ledger are unchanged, so the request remains pending —
provided no user already holds the requester's telegram id.  A failure
of the subsequent disable call does *not* abort (see the
counterexample): the code logs a warning and continues. -/
theorem approve_aborts_on_create_or_id_failure (st : BotState) (env : JellyEnv)
    (uid : Int) (hfail : env.createOk = false ∨ env.newUserId = none)
    (hg : get_user_by_telegram_id st uid = none) :
    (approve st env uid).1 = st := by
  unfold approve
  cases hp : lookupA st.pending uid with
  | none => rfl
  | some p =>
      rw [hg]
      rcases hfail with hc | hn
      · simp [hc]
      · cases hc : env.createOk with
        | false => simp
        | true => simp [hn]

/-- Witness for the amended C3 theorem. -/
theorem approve_aborts_on_create_or_id_failure_witness :
    (approve stApprove envCreateFail 5).1 = stApprove :=
  approve_aborts_on_create_or_id_failure stApprove envCreateFail 5
    (Or.inl (by decide)) (by decide)

/-- Counterexample to C3 as stated: the external disable call fails
(`envDisableFail`), yet the step does not abort — the account is written
into the registry, the indexes are updated and the pending request is
removed, i.e. the ledgers are mutated after an external-action failure. -/
theorem approve_mutates_despite_disable_failure :
    (approve stApprove envDisableFail 5).2.1 = ApproveOutcome.approved "j1" true ∧
    lookupA (approve stApprove envDisableFail 5).1.pending 5 = none ∧
    lookupA (approve stApprove envDisableFail 5).1.users "j1" =
      some (UserRec.mk "alice" (some 5) false Role.regular) := by
  decide

/-! ## C4: subscription expiry arithmetic and monotonic renewal -/

/-- C4: for a regular user and any positive durations, the new expiry is
exactly (existing expiry if still in the future, else now) + days×86400
seconds; renewing before the current window elapses extends from the
current expiry (for `activate(u,5)` then `activate(u,3)` this means
original expiry + 3×86400), so expiry strictly increases on renewal. -/
theorem activate_subscription_renewal (st : BotState) (t0 t1 : Int)
    (u : String) (ur : UserRec) (st1 : BotState) (e1 : Int)
    (cs1 : List ExtCall) (d1 d2 : Int)
    (hd1 : 0 < d1) (hd2 : 0 < d2)
    (hu : lookupA st.users u = some ur) (hrole : ur.role = Role.regular)
    (h1 : activate_subscription st t0 u d1 = Except.ok (st1, some e1, cs1))
    (hlt : t1 < e1) :
    e1 = activeBase st u t0 + d1 * 86400 ∧
    activate_subscription st1 t1 u d2 =
      Except.ok ({ st1 with subscriptions := insertA st1.subscriptions u (SubRec.mk t1 (e1 + d2 * 86400) d2) }, some (e1 + d2 * 86400), [ExtCall.enableUser ur.username]) ∧
    e1 < e1 + d2 * 86400 := by
  have hnr : ¬(ur.role = Role.admin ∨ ur.role = Role.privileged) := by
    rw [hrole]; rintro (h | h) <;> cases h
  have hnd1 : ¬(d1 ≤ 0) := not_le.mpr hd1
  unfold activate_subscription at h1
  rw [if_neg hnd1] at h1
  simp only [hu, if_neg hnr, Except.ok.injEq, Prod.mk.injEq] at h1
  obtain ⟨hst1, he1, -⟩ := h1
  have he1' : e1 = activeBase st u t0 + d1 * 86400 := by
    exact (Option.some.inj he1).symm
  refine ⟨he1', ?_, ?_⟩
  · have husers1 : st1.users = st.users := by rw [← hst1]
    have hsub1 : lookupA st1.subscriptions u =
        some (SubRec.mk t0 (activeBase st u t0 + d1 * SECONDS_PER_DAY) d1) := by
      rw [← hst1]
      exact lookupA_insert_self st.subscriptions u _
    have hnd2 : ¬(d2 ≤ 0) := not_le.mpr hd2
    unfold activate_subscription
    rw [if_neg hnd2, husers1]
    simp only [hu, if_neg hnr]
    have hbase : activeBase st1 u t1 = e1 := by
      unfold activeBase
      simp only [hsub1]
      have hfut : t1 < activeBase st u t0 + d1 * SECONDS_PER_DAY := by
        rw [he1'] at hlt
        exact hlt
      rw [if_pos hfut, he1']
      rfl
    rw [hbase]
    rfl
  · omega

/-- Witness for C4: a fresh 5-day activation at time 1000 yields expiry
433000, and a 3-day renewal at time 2000 yields 433000 + 259200. -/
theorem activate_subscription_renewal_witness :
    (433000 : Int) = activeBase stSub "j1" 1000 + (5 : Int) * 86400 ∧
    activate_subscription stSub1 2000 "j1" 3 =
      Except.ok ({ stSub1 with subscriptions := insertA stSub1.subscriptions "j1" (SubRec.mk 2000 (433000 + (3 : Int) * 86400) 3) }, some (433000 + (3 : Int) * 86400), [ExtCall.enableUser "bob"]) ∧
    (433000 : Int) < 433000 + (3 : Int) * 86400 :=
  activate_subscription_renewal stSub 1000 2000 "j1" urBob stSub1 433000
    [ExtCall.enableUser "bob"] 5 3 (by decide) (by decide) (by decide) (by decide)
    (by decide) (by decide)

/-! ## C5: activation error cases and the privileged no-op -/

/-- C5: `activate_subscription` raises the invalid-duration error for
days ≤ 0 (checked first); for positive days it raises the unknown-user
error when the id is absent from the registry; and for an existing
admin/privileged user it is a no-op that returns none and writes no
subscription ledger entry. -/
theorem activate_subscription_error_cases (st : BotState) (now : Int)
    (u : String) (days : Int) (ur : UserRec) :
    (days ≤ 0 →
       activate_subscription st now u days = Except.error ActError.invalidDuration) ∧
    (0 < days → lookupA st.users u = none →
       activate_subscription st now u days = Except.error ActError.unknownUser) ∧
    (lookupA st.users u = some ur →
       (ur.role = Role.admin ∨ ur.role = Role.privileged) → 0 < days →
       activate_subscription st now u days = Except.ok (st, none, [])) := by
  refine ⟨?_, ?_, ?_⟩
  · intro hd
    unfold activate_subscription
    rw [if_pos hd]
  · intro hd hu
    unfold activate_subscription
    rw [if_neg (not_le.mpr hd), hu]
  · intro hu hr hd
    unfold activate_subscription
    rw [if_neg (not_le.mpr hd)]
    simp only [hu, if_pos hr]

/-- Witness for C5: the three cases at concrete inputs. -/
theorem activate_subscription_error_cases_witness :
    activate_subscription stSub 0 "j1" (-1) = Except.error ActError.invalidDuration ∧
    activate_subscription stSub 0 "nosuch" 3 = Except.error ActError.unknownUser ∧
    activate_subscription stAdm 0 "a1" 3 = Except.ok (stAdm, none, []) :=
  ⟨(activate_subscription_error_cases stSub 0 "j1" (-1) urBob).1 (by decide),
   (activate_subscription_error_cases stSub 0 "nosuch" 3 urBob).2.1 (by decide) (by decide),
   (activate_subscription_error_cases stAdm 0 "a1" 3 urAdminA).2.2 (by decide)
     (Or.inl (by decide)) (by decide)⟩

/-! ## C6: at most one pending request per requester -/

/-- C6 (amended): while a pending request exists for a chat id, a new
register or link request is rejected and the state is unchanged, and a
new unlink request is rejected when the pending request is itself an
unlink; the unlink guard only checks for a pending *unlink*, so a
pending request of another kind is replaced by the new unlink request
(see the counterexample). -/
theorem pending_request_guards (st : BotState) (now : Int) (tg : Int)
    (first_name uname : String) (p : PendingRec)
    (hp : lookupA st.pending tg = some p) :
    (handle_register st tg first_name = (st, RegisterOutcome.alreadyRegistered) ∨
     handle_register st tg first_name = (st, RegisterOutcome.alreadyPending)) ∧
    (handle_linkme st now tg uname = (st, LinkmeOutcome.alreadyLinked) ∨
     handle_linkme st now tg uname = (st, LinkmeOutcome.alreadyPending)) ∧
    (p.kind = PendKind.unlink →
      handle_unlinkme st now tg = (st, UnlinkmeOutcome.notLinked) ∨
      handle_unlinkme st now tg = (st, UnlinkmeOutcome.alreadyPendingUnlink)) := by
  refine ⟨?_, ?_, ?_⟩
  · unfold handle_register
    cases hg : get_user_by_telegram_id st tg with
    | some q => left; rfl
    | none => right; simp [hp]
  · unfold handle_linkme
    cases hg : get_user_by_telegram_id st tg with
    | some q => left; rfl
    | none => right; simp [hp]
  · intro hk
    unfold handle_unlinkme
    cases hg : get_user_by_telegram_id st tg with
    | none => left; rfl
    | some q => right; simp [hp, hk]

/-- Witness for the amended C6 theorem at a linked user with a pending
unlink request. -/
theorem pending_request_guards_witness :
    (handle_register stPendW 3 "W" = (stPendW, RegisterOutcome.alreadyRegistered) ∨
     handle_register stPendW 3 "W" = (stPendW, RegisterOutcome.alreadyPending)) ∧
    (handle_linkme stPendW 0 3 "other" = (stPendW, LinkmeOutcome.alreadyLinked) ∨
     handle_linkme stPendW 0 3 "other" = (stPendW, LinkmeOutcome.alreadyPending)) ∧
    (handle_unlinkme stPendW 0 3 = (stPendW, UnlinkmeOutcome.notLinked) ∨
     handle_unlinkme stPendW 0 3 = (stPendW, UnlinkmeOutcome.alreadyPendingUnlink)) := by
  have h := pending_request_guards stPendW 0 3 "W" "other" pendUnlinkW (by decide)
  exact ⟨h.1, h.2.1, h.2.2 (by decide)⟩

/-- Counterexample to C6 as stated: telegram user 7 has a pending
*register* request (created via /register and then linked to `yuser` by
an admin /link, which does not clear pending requests); the subsequent
/unlinkme is accepted, not rejected, and silently replaces the pending
register entry with a new unlink entry. -/
theorem unlinkme_overwrites_pending_counterexample :
    lookupA stC6c.pending 7 = some (PendingRec.mk "al_new" 10 PendKind.register none) ∧
    (handle_unlinkme stC6c 20 7).2 = UnlinkmeOutcome.submitted ∧
    lookupA (handle_unlinkme stC6c 20 7).1.pending 7 =
      some (PendingRec.mk "yuser" 20 PendKind.unlink none) := by
  decide

/-! ## C7: the universal /cancel action -/

/-- C7 (amended): /cancel clears the requester's awaiting-input state
(awaiting-username entry, broadcast mode, broadcast target), touches no
other table, and is idempotent and always safe to run — but it does
*not* clear a pending request: those are removed only by an admin
decision or the stale-data sweep (see the counterexample). -/
theorem cancel_clears_awaiting_only (st : BotState) (tg : Int) :
    lookupA (handle_cancel st tg).awaiting_username tg = none ∧
    lookupA (handle_cancel st tg).broadcast_mode tg = none ∧
    lookupA (handle_cancel st tg).target_broadcast tg = none ∧
    (handle_cancel st tg).pending = st.pending ∧
    (handle_cancel st tg).subscriptions = st.subscriptions ∧
    (handle_cancel st tg).users = st.users ∧
    (handle_cancel st tg).telegram_to_userid = st.telegram_to_userid ∧
    handle_cancel (handle_cancel st tg) tg = handle_cancel st tg := by
  refine ⟨?_, ?_, ?_, rfl, rfl, rfl, rfl, ?_⟩
  · exact lookupA_erase_self _ tg
  · exact lookupA_erase_self _ tg
  · exact lookupA_erase_self _ tg
  · unfold handle_cancel
    simp [eraseA_idem]

/-- Counterexample to C7 as stated: /cancel leaves the requester's
pending request in place (while clearing the awaiting-username state). -/
theorem cancel_leaves_pending_counterexample :
    lookupA (handle_cancel stC7 5).pending 5 = some pendReg5 ∧
    lookupA (handle_cancel stC7 5).awaiting_username 5 = none := by
  decide

/-! ## C10: non-regular users and the subscription ledger -/

/-- C10 (amended): no operation *creates* a subscription entry for an
admin/privileged user — activation is a no-op returning none and
/subextend refuses — but operations that move a user's role away from
regular (the admin upgrade; likewise the startup admin sync) do not
remove an existing entry, so a non-regular user can retain a stale
subscription entry (see the counterexample). -/
theorem nonregular_subscription_policy (st : BotState) (now : Int) (u : String)
    (days : Int) (ur : UserRec)
    (hu : lookupA st.users u = some ur)
    (hr : ur.role = Role.admin ∨ ur.role = Role.privileged) :
    (0 < days → activate_subscription st now u days = Except.ok (st, none, [])) ∧
    (get_user_by_username st ur.username = some (u, ur) →
       handle_subextend st now ur.username days = (st, none)) ∧
    (handle_admin_upgrade st u).1.subscriptions = st.subscriptions := by
  refine ⟨?_, ?_, ?_⟩
  · intro hd
    unfold activate_subscription
    rw [if_neg (not_le.mpr hd)]
    simp only [hu, if_pos hr]
  · intro hg
    unfold handle_subextend
    by_cases hd : days ≤ 0
    · rw [if_pos hd]
    · rw [if_neg hd]
      simp only [hg, if_pos hr]
  · unfold handle_admin_upgrade
    simp only [hu]
    by_cases ha : ur.role = Role.admin
    · rw [if_pos ha]
    · rw [if_neg ha]

/-- Witness for the amended C10 theorem on the admin user `adminA`. -/
theorem nonregular_subscription_policy_witness :
    activate_subscription stAdm 0 "a1" 3 = Except.ok (stAdm, none, []) ∧
    handle_subextend stAdm 0 "adminA" 3 = (stAdm, none) ∧
    (handle_admin_upgrade stAdm "a1").1.subscriptions = stAdm.subscriptions := by
  have h := nonregular_subscription_policy stAdm 0 "a1" 3 urAdminA (by decide)
    (Or.inl (by decide))
  exact ⟨h.1 (by decide), h.2.1 (by decide), h.2.2⟩

/-- Counterexample to C10 as stated: upgrading the regular user `dave`
(who holds a live subscription entry) to privileged leaves his
subscription ledger entry in place, so a non-regular user now has a
Subscription entry. -/
theorem role_change_keeps_subscription_counterexample :
    (handle_admin_upgrade stC10 "jD").2 = some Role.privileged ∧
    lookupA (handle_admin_upgrade stC10 "jD").1.users "jD" =
      some (UserRec.mk "dave" (some 6) false Role.privileged) ∧
    lookupA (handle_admin_upgrade stC10 "jD").1.subscriptions "jD" = some subLong := by
  decide

/-! ## Expiry-monitor fold lemmas (C8, C9) -/

theorem eraseA_sublist (m : AMap K V) (k : K) : (eraseA m k).Sublist m := by
  induction m with
  | nil => exact List.Sublist.refl []
  | cons p rest ih =>
      by_cases h : p.1 = k
      · simpa [eraseA, h] using ih.cons p
      · simpa [eraseA, h] using ih.cons₂ p

theorem keysNodup_eraseA (m : AMap K V) (k : K) (h : keysNodup m) :
    keysNodup (eraseA m k) := by
  unfold keysNodup at *
  exact List.Nodup.sublist ((eraseA_sublist m k).map Prod.fst) h

theorem processOne_users (env : String → Bool) (acc : PassAcc) (uid : String) :
    (processExpiredOne env acc uid).state.users = acc.state.users := by
  unfold processExpiredOne
  cases h : lookupA acc.state.users uid with
  | none => rfl
  | some u =>
      by_cases he : env u.username = false
      · simp [he]
      · simp [he]

theorem processOne_subs_ne (env : String → Bool) (acc : PassAcc) (uid uid' : String)
    (h : uid' ≠ uid) :
    lookupA (processExpiredOne env acc uid).state.subscriptions uid' =
      lookupA acc.state.subscriptions uid' := by
  unfold processExpiredOne
  cases hu : lookupA acc.state.users uid with
  | none => exact lookupA_erase_ne acc.state.subscriptions uid uid' (Ne.symm h)
  | some u =>
      by_cases he : env u.username = false
      · simp [he]
      · simp only [he, if_false]
        exact lookupA_erase_ne acc.state.subscriptions uid uid' (Ne.symm h)

theorem processOne_subs_sublist (env : String → Bool) (acc : PassAcc) (uid : String) :
    (processExpiredOne env acc uid).state.subscriptions.Sublist
      acc.state.subscriptions := by
  unfold processExpiredOne
  cases hu : lookupA acc.state.users uid with
  | none => exact eraseA_sublist acc.state.subscriptions uid
  | some u =>
      by_cases he : env u.username = false
      · simp [he]
      · simp only [he, if_false]
        exact eraseA_sublist acc.state.subscriptions uid

theorem processOne_disables_mem (env : String → Bool) (acc : PassAcc) (uid : String)
    (x : String) (h : x ∈ acc.disables) :
    x ∈ (processExpiredOne env acc uid).disables := by
  unfold processExpiredOne
  cases hu : lookupA acc.state.users uid with
  | none => exact h
  | some u =>
      by_cases he : env u.username = false
      · simp only [he, if_true]
        exact List.mem_append_left _ h
      · simp only [he, if_false]
        exact List.mem_append_left _ h

theorem processOne_notices_mem (env : String → Bool) (acc : PassAcc) (uid : String)
    (t : Int) (h : t ∈ acc.notices) :
    t ∈ (processExpiredOne env acc uid).notices := by
  unfold processExpiredOne
  cases hu : lookupA acc.state.users uid with
  | none => exact h
  | some u =>
      by_cases he : env u.username = false
      · simpa [he] using h
      · simp only [he, if_false]
        exact List.mem_append_left _ h

theorem foldPass_users (env : String → Bool) (l : List String) (acc : PassAcc) :
    (l.foldl (processExpiredOne env) acc).state.users = acc.state.users := by
  induction l generalizing acc with
  | nil => rfl
  | cons x xs ih => rw [List.foldl_cons, ih, processOne_users]

theorem foldPass_subs_notmem (env : String → Bool) (l : List String) (acc : PassAcc)
    (uid : String) (h : uid ∉ l) :
    lookupA (l.foldl (processExpiredOne env) acc).state.subscriptions uid =
      lookupA acc.state.subscriptions uid := by
  induction l generalizing acc with
  | nil => rfl
  | cons x xs ih =>
      rw [List.foldl_cons]
      have hx : uid ≠ x := fun hh => h (hh ▸ List.mem_cons_self x xs)
      rw [ih _ (fun hm => h (List.mem_cons_of_mem x hm))]
      exact processOne_subs_ne env acc x uid hx

theorem foldPass_disables_mem (env : String → Bool) (l : List String) (acc : PassAcc)
    (x : String) (h : x ∈ acc.disables) :
    x ∈ (l.foldl (processExpiredOne env) acc).disables := by
  induction l generalizing acc with
  | nil => exact h
  | cons y ys ih =>
      rw [List.foldl_cons]
      exact ih _ (processOne_disables_mem env acc y x h)

theorem foldPass_notices_mem (env : String → Bool) (l : List String) (acc : PassAcc)
    (t : Int) (h : t ∈ acc.notices) :
    t ∈ (l.foldl (processExpiredOne env) acc).notices := by
  induction l generalizing acc with
  | nil => exact h
  | cons y ys ih =>
      rw [List.foldl_cons]
      exact ih _ (processOne_notices_mem env acc y t h)

theorem foldPass_subs_sublist (env : String → Bool) (l : List String) (acc : PassAcc) :
    (l.foldl (processExpiredOne env) acc).state.subscriptions.Sublist
      acc.state.subscriptions := by
  induction l generalizing acc with
  | nil => exact List.Sublist.refl _
  | cons x xs ih =>
      rw [List.foldl_cons]
      exact (ih _).trans (processOne_subs_sublist env acc x)

theorem processOne_at_fail (env : String → Bool) (acc : PassAcc) (uid : String)
    (u : UserRec) (hu : lookupA acc.state.users uid = some u)
    (he : env u.username = false) :
    processExpiredOne env acc uid =
      PassAcc.mk acc.state (acc.disables ++ [u.username]) acc.notices := by
  unfold processExpiredOne
  simp [hu, he]

theorem processOne_at_success (env : String → Bool) (acc : PassAcc) (uid : String)
    (u : UserRec) (hu : lookupA acc.state.users uid = some u)
    (he : env u.username = true) :
    processExpiredOne env acc uid =
      PassAcc.mk { acc.state with subscriptions := eraseA acc.state.subscriptions uid }
        (acc.disables ++ [u.username]) (acc.notices ++ u.telegram_id.toList) := by
  unfold processExpiredOne
  simp [hu, he]

theorem processOne_at_orphan (env : String → Bool) (acc : PassAcc) (uid : String)
    (hu : lookupA acc.state.users uid = none) :
    processExpiredOne env acc uid =
      PassAcc.mk { acc.state with subscriptions := eraseA acc.state.subscriptions uid }
        acc.disables acc.notices := by
  unfold processExpiredOne
  simp [hu]

theorem foldPass_per_entry (env : String → Bool) (l : List String) (acc : PassAcc)
    (uid : String) (s : SubRec) (hnd : l.Nodup) (hmem : uid ∈ l)
    (hs : lookupA acc.state.subscriptions uid = some s) :
    (∀ u, lookupA acc.state.users uid = some u →
        (env u.username = false →
           lookupA (l.foldl (processExpiredOne env) acc).state.subscriptions uid = some s ∧
           u.username ∈ (l.foldl (processExpiredOne env) acc).disables) ∧
        (env u.username = true →
           lookupA (l.foldl (processExpiredOne env) acc).state.subscriptions uid = none ∧
           u.username ∈ (l.foldl (processExpiredOne env) acc).disables ∧
           ∀ t ∈ u.telegram_id.toList,
             t ∈ (l.foldl (processExpiredOne env) acc).notices)) ∧
    (lookupA acc.state.users uid = none →
        lookupA (l.foldl (processExpiredOne env) acc).state.subscriptions uid = none) := by
  induction l generalizing acc with
  | nil => cases hmem
  | cons x xs ih =>
      rw [List.foldl_cons]
      by_cases hx : x = uid
      · subst hx
        have hnotmem : x ∉ xs := (List.nodup_cons.mp hnd).1
        constructor
        · intro u hu
          constructor
          · intro he
            rw [processOne_at_fail env acc x u hu he]
            constructor
            · rw [foldPass_subs_notmem env xs _ x hnotmem]
              exact hs
            · exact foldPass_disables_mem env xs _ u.username
                (List.mem_append_right _ (List.mem_singleton.mpr rfl))
          · intro he
            rw [processOne_at_success env acc x u hu he]
            refine ⟨?_, ?_, ?_⟩
            · rw [foldPass_subs_notmem env xs _ x hnotmem]
              exact lookupA_erase_self acc.state.subscriptions x
            · exact foldPass_disables_mem env xs _ u.username
                (List.mem_append_right _ (List.mem_singleton.mpr rfl))
            · intro t ht
              exact foldPass_notices_mem env xs _ t
                (List.mem_append_right _ ht)
        · intro hu
          rw [processOne_at_orphan env acc x hu]
          rw [foldPass_subs_notmem env xs _ x hnotmem]
          exact lookupA_erase_self acc.state.subscriptions x
      · have hmem' : uid ∈ xs := by
          rcases List.mem_cons.mp hmem with h | h
          · exact absurd h.symm hx
          · exact h
        have hnd' : xs.Nodup := (List.nodup_cons.mp hnd).2
        have hs' : lookupA (processExpiredOne env acc x).state.subscriptions uid = some s := by
          rw [processOne_subs_ne env acc x uid (fun hh => hx hh.symm)]
          exact hs
        have husers : (processExpiredOne env acc x).state.users = acc.state.users :=
          processOne_users env acc x
        have ihx := ih (processExpiredOne env acc x) hnd' hmem' hs'
        rw [husers] at ihx
        exact ihx

theorem mem_expiredKeys (subs : AMap String SubRec) (now : Int) (uid : String)
    (s : SubRec) (hs : lookupA subs uid = some s) (hexp : s.expires_at ≤ now) :
    uid ∈ expiredKeys subs now := by
  unfold expiredKeys
  have hmem : (uid, s) ∈ subs := mem_of_lookupA_eq_some subs uid s hs
  have hfil : (uid, s) ∈ subs.filter (fun q => q.2.expires_at ≤ now) :=
    List.mem_filter.mpr ⟨hmem, by simpa using hexp⟩
  exact List.mem_map_of_mem Prod.fst hfil

theorem nodup_expiredKeys (subs : AMap String SubRec) (now : Int)
    (hnd : keysNodup subs) : (expiredKeys subs now).Nodup := by
  unfold expiredKeys
  unfold keysNodup at hnd
  exact List.Nodup.sublist ((List.filter_sublist subs).map Prod.fst) hnd

/-! ## C8: at-least-once disable semantics of the monitor pass -/

/-- C8 (amended): in one Expiry Monitor pass, for every overdue ledger
entry whose user exists in the registry a disable call is issued; if the
disable fails the entry is left untouched (so the next pass retries —
at-least-once semantics), and on success the entry is removed and the
user's linked chat, if any, is notified.  An overdue entry whose user is
*absent* from the registry is removed without any disable attempt (see
the counterexample — this is the one deviation from the claim as
stated). -/
theorem monitor_pass_per_entry (st : BotState) (now : Int) (env : String → Bool)
    (uid : String) (s : SubRec)
    (hnd : keysNodup st.subscriptions)
    (hs : lookupA st.subscriptions uid = some s) (hexp : s.expires_at ≤ now) :
    (∀ u, lookupA st.users uid = some u →
        (env u.username = false →
           lookupA (monitor_pass st now env).state.subscriptions uid = some s ∧
           u.username ∈ (monitor_pass st now env).disables) ∧
        (env u.username = true →
           lookupA (monitor_pass st now env).state.subscriptions uid = none ∧
           u.username ∈ (monitor_pass st now env).disables ∧
           ∀ t ∈ u.telegram_id.toList, t ∈ (monitor_pass st now env).notices)) ∧
    (lookupA st.users uid = none →
        lookupA (monitor_pass st now env).state.subscriptions uid = none) := by
  unfold monitor_pass
  exact foldPass_per_entry env (expiredKeys st.subscriptions now) (PassAcc.mk st [] [])
    uid s (nodup_expiredKeys st.subscriptions now hnd)
    (mem_expiredKeys st.subscriptions now uid s hs hexp) hs

/-- Witness for the amended C8 theorem: a failed disable keeps `carol`'s
entry and records the attempt; a successful disable removes it and
notifies her linked chat 4. -/
theorem monitor_pass_per_entry_witness :
    (lookupA (monitor_pass stMon 100 (fun _ => false)).state.subscriptions "jC" =
        some subExpired ∧
     "carol" ∈ (monitor_pass stMon 100 (fun _ => false)).disables) ∧
    (lookupA (monitor_pass stMon 100 (fun _ => true)).state.subscriptions "jC" = none ∧
     "carol" ∈ (monitor_pass stMon 100 (fun _ => true)).disables ∧
     (4 : Int) ∈ (monitor_pass stMon 100 (fun _ => true)).notices) := by
  have hf := monitor_pass_per_entry stMon 100 (fun _ => false) "jC" subExpired
    (by decide) (by decide) (by decide)
  have ht := monitor_pass_per_entry stMon 100 (fun _ => true) "jC" subExpired
    (by decide) (by decide) (by decide)
  refine ⟨(hf.1 urCarol (by decide)).1 (by decide), ?_⟩
  have h2 := (ht.1 urCarol (by decide)).2 (by decide)
  exact ⟨h2.1, h2.2.1, h2.2.2 4 (by decide)⟩

/-- Counterexample to C8 as stated: the orphaned overdue entry `ghost`
(no such user in the registry) is removed by the pass even though no
disable was attempted, let alone succeeded — the disable list is empty. -/
theorem monitor_pass_orphan_counterexample :
    monitor_pass stOrphan 100 (fun _ => false) =
      PassAcc.mk (BotState.mk [] [] [] [] [] [] [] []) [] [] := by
  decide

/-! ## C9: idempotence of the monitor pass on a settled ledger -/

theorem monitor_pass_of_settled (st : BotState) (now : Int) (env : String → Bool)
    (h : settled st now) : monitor_pass st now env = PassAcc.mk st [] [] := by
  unfold monitor_pass
  have hempty : expiredKeys st.subscriptions now = [] := by
    unfold expiredKeys
    have hfil : st.subscriptions.filter (fun q => q.2.expires_at ≤ now) = [] := by
      apply List.filter_eq_nil_iff.mpr
      intro q hq
      simpa using not_le.mpr (h q hq)
    rw [hfil]
    rfl
  rw [hempty]
  rfl

theorem monitor_pass_result_settled (st : BotState) (now : Int)
    (hnd : keysNodup st.subscriptions) :
    settled (monitor_pass st now (fun _ => true)).state now := by
  intro q hq
  by_contra hc
  push_neg at hc
  have hsub : (monitor_pass st now (fun _ => true)).state.subscriptions.Sublist
      st.subscriptions := by
    unfold monitor_pass
    exact foldPass_subs_sublist _ _ _
  have hq0 : q ∈ st.subscriptions := hsub.mem hq
  have hs0 : lookupA st.subscriptions q.1 = some q.2 :=
    lookupA_eq_some_of_mem st.subscriptions q hnd hq0
  have hndres : keysNodup (monitor_pass st now (fun _ => true)).state.subscriptions := by
    unfold keysNodup
    exact List.Nodup.sublist (hsub.map Prod.fst) hnd
  have hsres : lookupA (monitor_pass st now (fun _ => true)).state.subscriptions q.1 =
      some q.2 :=
    lookupA_eq_some_of_mem _ q hndres hq
  have hmain := monitor_pass_per_entry st now (fun _ => true) q.1 q.2 hnd hs0 hc
  cases hu : lookupA st.users q.1 with
  | none =>
      have := hmain.2 hu
      rw [this] at hsres
      cases hsres
  | some u =>
      have := ((hmain.1 u hu).2 rfl).1
      rw [this] at hsres
      cases hsres

/-- C9 (amended): the main revision's Expiry Monitor pass is idempotent —
on a settled ledger (no entry due) a pass changes nothing, issues no
disable calls and sends no notifications; and after a pass in which
every disable succeeded, re-running the pass at the same time is a
no-op.  The app revision's pass is *not* idempotent in disable calls:
its enforcement backstop re-issues a disable for every regular user
without active access on every pass (see the counterexample). -/
theorem monitor_pass_idempotent_base (st : BotState) (now : Int)
    (env env2 : String → Bool) (hnd : keysNodup st.subscriptions) :
    (settled st now → monitor_pass st now env = PassAcc.mk st [] []) ∧
    monitor_pass (monitor_pass st now (fun _ => true)).state now env2 =
      PassAcc.mk (monitor_pass st now (fun _ => true)).state [] [] := by
  constructor
  · intro h
    exact monitor_pass_of_settled st now env h
  · exact monitor_pass_of_settled _ now env2 (monitor_pass_result_settled st now hnd)

/-- Witness for the amended C9 theorem on a ledger holding one future
entry. -/
theorem monitor_pass_idempotent_base_witness :
    (monitor_pass stFut 100 (fun _ => false) = PassAcc.mk stFut [] []) ∧
    monitor_pass (monitor_pass stFut 100 (fun _ => true)).state 100 (fun _ => false) =
      PassAcc.mk (monitor_pass stFut 100 (fun _ => true)).state [] [] := by
  have h := monitor_pass_idempotent_base stFut 100 (fun _ => false) (fun _ => false)
    (by decide)
  exact ⟨h.1 (by decide), h.2⟩

/-- Counterexample to C9 as stated, on the app revision: with the
settled (empty) ledger and the regular user `carol` lacking any
subscription, every pass — including a second pass on the unchanged
state — issues a fresh disable call through the enforcement backstop. -/
theorem app_monitor_pass_not_idempotent_counterexample :
    settled stC9 0 ∧
    (app_monitor_pass stC9 0 (fun _ => true)).state = stC9 ∧
    (app_monitor_pass stC9 0 (fun _ => true)).disables = ["carol"] ∧
    (app_monitor_pass (app_monitor_pass stC9 0 (fun _ => true)).state 0
        (fun _ => true)).disables = ["carol"] := by
  decide


/-! ## Additional association-map lemmas (C2) -/

theorem mem_toList_iff {A : Type} (o : Option A) (a : A) :
    a ∈ o.toList ↔ o = some a := by
  cases o <;> simp [Option.toList, eq_comm]

theorem mem_keysA_insertA (m : AMap K V) (k : K) (v : V) (a : K) :
    a ∈ keysA (insertA m k v) ↔ a = k ∨ a ∈ keysA m := by
  induction m with
  | nil => simp [insertA, keysA, eq_comm]
  | cons p rest ih =>
      by_cases h : p.1 = k
      · simp only [insertA, if_pos h, keysA, List.map_cons, List.mem_cons]
        rw [h]
        tauto
      · simp only [insertA, if_neg h, keysA, List.map_cons, List.mem_cons]
        unfold keysA at ih
        rw [ih]
        tauto

theorem keysNodup_insertA (m : AMap K V) (k : K) (v : V) (h : keysNodup m) :
    keysNodup (insertA m k v) := by
  induction m with
  | nil => simp [insertA, keysNodup, keysA]
  | cons q rest ih =>
      unfold keysNodup keysA at h
      simp only [List.map_cons, List.nodup_cons] at h
      obtain ⟨hq, hrest⟩ := h
      by_cases hk : q.1 = k
      · unfold keysNodup keysA
        simp only [insertA, if_pos hk, List.map_cons, List.nodup_cons]
        exact ⟨hk ▸ hq, hrest⟩
      · unfold keysNodup keysA
        simp only [insertA, if_neg hk, List.map_cons, List.nodup_cons]
        constructor
        · intro hmem
          rcases (mem_keysA_insertA rest k v q.1).mp hmem with h1 | h1
          · exact hk h1
          · exact hq h1
        · exact ih hrest

theorem mem_insertA_iff (m : AMap K V) (k : K) (v : V) (p : K × V)
    (hnd : keysNodup m) :
    p ∈ insertA m k v ↔ p = (k, v) ∨ (p ∈ m ∧ p.1 ≠ k) := by
  induction m with
  | nil => simp [insertA]
  | cons q rest ih =>
      unfold keysNodup keysA at hnd
      simp only [List.map_cons, List.nodup_cons] at hnd
      obtain ⟨hq, hrest⟩ := hnd
      by_cases h : q.1 = k
      · simp only [insertA, if_pos h, List.mem_cons]
        constructor
        · rintro (h1 | h1)
          · exact Or.inl h1
          · refine Or.inr ⟨Or.inr h1, ?_⟩
            intro hc
            apply hq
            rw [h, ← hc]
            exact List.mem_map_of_mem Prod.fst h1
        · rintro (h1 | ⟨h1, h2⟩)
          · exact Or.inl h1
          · rcases h1 with h3 | h3
            · exact absurd (by rw [h3, h]) h2
            · exact Or.inr h3
      · simp only [insertA, if_neg h, List.mem_cons]
        rw [ih hrest]
        constructor
        · rintro (h1 | h1 | ⟨h1, h2⟩)
          · refine Or.inr ⟨Or.inl h1, ?_⟩
            rw [h1]; exact h
          · exact Or.inl h1
          · exact Or.inr ⟨Or.inr h1, h2⟩
        · rintro (h1 | ⟨h1 | h1, h2⟩)
          · exact Or.inr (Or.inl h1)
          · exact Or.inl h1
          · exact Or.inr (Or.inr ⟨h1, h2⟩)

theorem mem_eraseA_iff (m : AMap K V) (k : K) (p : K × V) :
    p ∈ eraseA m k ↔ p ∈ m ∧ p.1 ≠ k := by
  induction m with
  | nil => simp [eraseA]
  | cons q rest ih =>
      by_cases h : q.1 = k
      · simp only [eraseA, if_pos h, List.mem_cons]
        rw [ih]
        constructor
        · rintro ⟨h1, h2⟩
          exact ⟨Or.inr h1, h2⟩
        · rintro ⟨h1 | h1, h2⟩
          · exact absurd (by rw [h1, h]) h2
          · exact ⟨h1, h2⟩
      · simp only [eraseA, if_neg h, List.mem_cons]
        rw [ih]
        constructor
        · rintro (h1 | ⟨h1, h2⟩)
          · refine ⟨Or.inl h1, ?_⟩
            rw [h1]; exact h
          · exact ⟨Or.inr h1, h2⟩
        · rintro ⟨h1 | h1, h2⟩
          · left; exact h1
          · right; exact ⟨h1, h2⟩

theorem keysNodup_filter {K2 V2 : Type} (m : AMap K2 V2) (f : K2 × V2 → Bool)
    (h : keysNodup m) : keysNodup (m.filter f) := by
  unfold keysNodup at *
  exact List.Nodup.sublist ((List.filter_sublist m).map Prod.fst) h

/-! ## Startup rebuild characterization (C2) -/

theorem rebuildStep_tid_none (m : AMap Int String) (p : String × UserRec)
    (h : p.2.telegram_id = none) : rebuildStep m p = m := by
  unfold rebuildStep
  rw [h]

theorem rebuildStep_tid_some (m : AMap Int String) (p : String × UserRec)
    (t' : Int) (h : p.2.telegram_id = some t') :
    rebuildStep m p = if lookupA m t' ≠ some p.1 then insertA m t' p.1 else m := by
  unfold rebuildStep
  rw [h]

theorem lookupA_rebuildStep (m : AMap Int String) (p : String × UserRec)
    (t' t : Int) (h : p.2.telegram_id = some t') :
    lookupA (rebuildStep m p) t = if t' = t then some p.1 else lookupA m t := by
  rw [rebuildStep_tid_some m p t' h]
  by_cases hl : lookupA m t' = some p.1
  · rw [if_neg (not_not_intro hl)]
    by_cases ht : t' = t
    · rw [if_pos ht, ← ht, hl]
    · rw [if_neg ht]
  · rw [if_pos hl]
    by_cases ht : t' = t
    · rw [if_pos ht, ← ht]
      exact lookupA_insert_self m t' p.1
    · rw [if_neg ht]
      exact lookupA_insert_ne m t' t p.1 ht

theorem rebuild_fold_lookup (l : List (String × UserRec)) (m : AMap Int String)
    (t : Int) :
    lookupA (l.foldl rebuildStep m) t =
      match writeOf l t with
      | some uid => some uid
      | none => lookupA m t := by
  induction l generalizing m with
  | nil => rfl
  | cons p rest ih =>
      rw [List.foldl_cons, ih]
      cases hw : writeOf rest t with
      | some uid => simp [writeOf, hw]
      | none =>
          simp only [writeOf, hw]
          cases htid : p.2.telegram_id with
          | none =>
              rw [rebuildStep_tid_none m p htid]
          | some t' =>
              rw [lookupA_rebuildStep m p t' t htid]
              by_cases ht : t' = t
              · simp [ht]
              · simp [ht]

theorem writeOf_eq_some (l : List (String × UserRec)) (t : Int) (uid : String)
    (h : writeOf l t = some uid) :
    ∃ u, (uid, u) ∈ l ∧ u.telegram_id = some t := by
  induction l with
  | nil => cases h
  | cons p rest ih =>
      unfold writeOf at h
      cases hw : writeOf rest t with
      | some uid' =>
          rw [hw] at h
          cases h
          obtain ⟨u, hu1, hu2⟩ := ih hw
          exact ⟨u, List.mem_cons_of_mem p hu1, hu2⟩
      | none =>
          rw [hw] at h
          cases htid : p.2.telegram_id with
          | none => simp [htid] at h
          | some t' =>
              simp only [htid] at h
              by_cases ht : t' = t
              · rw [if_pos ht] at h
                cases h
                refine ⟨p.2, ?_, by rw [htid, ht]⟩
                exact List.mem_cons_self p rest
              · rw [if_neg ht] at h
                cases h

theorem writeOf_eq_none (l : List (String × UserRec)) (t : Int)
    (h : writeOf l t = none) :
    ∀ p ∈ l, p.2.telegram_id ≠ some t := by
  induction l with
  | nil => intro p hp; cases hp
  | cons q rest ih =>
      unfold writeOf at h
      cases hw : writeOf rest t with
      | some uid' => rw [hw] at h; cases h
      | none =>
          rw [hw] at h
          intro p hp
          rcases List.mem_cons.mp hp with h1 | h1
          · subst h1
            intro hc
            simp [hc] at h
          · exact ih hw p h1

theorem writeOf_of_mem (l : List (String × UserRec)) (p : String × UserRec)
    (t : Int) (huniq : tidsUnique l) (hm : p ∈ l)
    (ht : p.2.telegram_id = some t) : writeOf l t = some p.1 := by
  induction l with
  | nil => cases hm
  | cons q rest ih =>
      unfold writeOf
      cases hw : writeOf rest t with
      | some uid' =>
          obtain ⟨u', hu1, hu2⟩ := writeOf_eq_some rest t uid' hw
          have heq : p.1 = uid' := by
            apply huniq p hm (uid', u') (List.mem_cons_of_mem q hu1) t
            · rw [mem_toList_iff]; exact ht
            · rw [mem_toList_iff]; exact hu2
          rw [heq]
      | none =>
          have huniq' : tidsUnique rest := by
            intro a ha b hb t0 ht0 ht0'
            exact huniq a (List.mem_cons_of_mem q ha) b (List.mem_cons_of_mem q hb)
              t0 ht0 ht0'
          rcases List.mem_cons.mp hm with h1 | h1
          · subst h1
            simp [ht]
          · exact absurd ht (writeOf_eq_none rest t hw p h1)

theorem mem_validTids (users : AMap String UserRec) (t : Int) :
    t ∈ validTids users ↔ ∃ p ∈ users, p.2.telegram_id = some t := by
  unfold validTids
  rw [List.mem_filterMap]

theorem lookupA_removeStale_none (users : AMap String UserRec)
    (m : AMap Int String) (t : Int) (h : t ∉ validTids users) :
    lookupA (removeStale users m) t = none := by
  unfold removeStale
  induction m with
  | nil => rfl
  | cons q rest ih =>
      by_cases hq : q.1 ∈ validTids users
      · rw [List.filter_cons_of_pos (by simpa using hq)]
        have hne : q.1 ≠ t := fun hc => h (hc ▸ hq)
        simpa [lookupA, hne] using ih
      · rw [List.filter_cons_of_neg (by simpa using hq)]
        exact ih

theorem keysNodup_rebuild_fold (l : List (String × UserRec))
    (m : AMap Int String) (hnd : keysNodup m) :
    keysNodup (l.foldl rebuildStep m) := by
  induction l generalizing m with
  | nil => exact hnd
  | cons p rest ih =>
      rw [List.foldl_cons]
      apply ih
      cases htid : p.2.telegram_id with
      | none =>
          rw [rebuildStep_tid_none m p htid]
          exact hnd
      | some t' =>
          rw [rebuildStep_tid_some m p t' htid]
          by_cases hl : lookupA m t' ≠ some p.1
          · rw [if_pos hl]
            exact keysNodup_insertA m t' p.1 hnd
          · rw [if_neg hl]
            exact hnd

/-- C2 rebuild half: after the startup rebuild, the chat-id index is
consistent with the registry, given distinct registry keys, distinct
mapping keys on disk, and at most one user per telegram id. -/
theorem rebuild_telegram_mapping_consistent (users : AMap String UserRec)
    (m : AMap Int String) (hndU : keysNodup users) (hndM : keysNodup m)
    (huniq : tidsUnique users) :
    chatIndexConsistent users (rebuild_telegram_mapping users m) := by
  unfold rebuild_telegram_mapping
  constructor
  · intro p hp t ht
    rw [mem_toList_iff] at ht
    rw [rebuild_fold_lookup users (removeStale users m) t,
        writeOf_of_mem users p t huniq hp ht]
  · intro q hq
    have hndres : keysNodup (users.foldl rebuildStep (removeStale users m)) :=
      keysNodup_rebuild_fold users (removeStale users m)
        (keysNodup_filter m _ hndM)
    have hlq : lookupA (users.foldl rebuildStep (removeStale users m)) q.1 =
        some q.2 :=
      lookupA_eq_some_of_mem _ q hndres hq
    rw [rebuild_fold_lookup users (removeStale users m) q.1] at hlq
    cases hw : writeOf users q.1 with
    | some uid =>
        rw [hw] at hlq
        cases hlq
        obtain ⟨u, hu1, hu2⟩ := writeOf_eq_some users q.1 q.2 hw
        refine ⟨u, ?_, hu2⟩
        rw [mem_toList_iff]
        exact lookupA_eq_some_of_mem users (q.2, u) hndU hu1
    | none =>
        rw [hw] at hlq
        have hnot : q.1 ∉ validTids users := by
          rw [mem_validTids]
          rintro ⟨p, hp1, hp2⟩
          exact writeOf_eq_none users q.1 hw p hp1 hp2
        rw [lookupA_removeStale_none users m q.1 hnot] at hlq
        cases hlq

/-! ## Index-consistency preservation cores (C2) -/

theorem consistent_setlink_core (users : AMap String UserRec)
    (m : AMap Int String) (uid0 : String) (u0 : UserRec) (tg : Int)
    (hndU : keysNodup users) (hndM : keysNodup m)
    (hcons : chatIndexConsistent users m)
    (ht0 : u0.telegram_id = some tg)
    (hnopoint : ∀ q ∈ m, q.2 ≠ uid0)
    (hfree : ∀ uidX, lookupA m tg = some uidX → lookupA users uidX = none) :
    chatIndexConsistent (insertA users uid0 u0) (insertA m tg uid0) := by
  obtain ⟨hc1, hc2⟩ := hcons
  constructor
  · intro p hp t ht
    rw [mem_toList_iff] at ht
    rcases (mem_insertA_iff users uid0 u0 p hndU).mp hp with h1 | ⟨h1, h2⟩
    · subst h1
      rw [ht0] at ht
      cases ht
      exact lookupA_insert_self m tg uid0
    · have hold : lookupA m t = some p.1 := by
        apply hc1 p h1 t
        rw [mem_toList_iff]
        exact ht
      by_cases htg : t = tg
      · exfalso
        rw [htg] at hold
        have := hfree p.1 hold
        have hmem : lookupA users p.1 = some p.2 :=
          lookupA_eq_some_of_mem users p hndU h1
        rw [hmem] at this
        cases this
      · rw [lookupA_insert_ne m tg t uid0 (fun hc => htg hc.symm)]
        exact hold
  · intro q hq
    rcases (mem_insertA_iff m tg uid0 q hndM).mp hq with h1 | ⟨h1, h2⟩
    · subst h1
      refine ⟨u0, ?_, ht0⟩
      rw [mem_toList_iff]
      exact lookupA_insert_self users uid0 u0
    · obtain ⟨u, hu1, hu2⟩ := hc2 q h1
      rw [mem_toList_iff] at hu1
      have hne : q.2 ≠ uid0 := hnopoint q h1
      refine ⟨u, ?_, hu2⟩
      rw [mem_toList_iff, lookupA_insert_ne users uid0 q.2 u0 (fun hc => hne hc.symm)]
      exact hu1

theorem consistent_unsetlink_core (users : AMap String UserRec)
    (m : AMap Int String) (uid0 : String) (u0old u0new : UserRec) (tg : Int)
    (hndU : keysNodup users)
    (hcons : chatIndexConsistent users m)
    (hu0 : lookupA users uid0 = some u0old)
    (htold : u0old.telegram_id = some tg)
    (htnew : u0new.telegram_id = none) :
    chatIndexConsistent (insertA users uid0 u0new) (eraseA m tg) := by
  obtain ⟨hc1, hc2⟩ := hcons
  have hmem0 : (uid0, u0old) ∈ users := mem_of_lookupA_eq_some users uid0 u0old hu0
  have hm0 : lookupA m tg = some uid0 := by
    apply hc1 (uid0, u0old) hmem0 tg
    rw [mem_toList_iff]
    exact htold
  constructor
  · intro p hp t ht
    rw [mem_toList_iff] at ht
    rcases (mem_insertA_iff users uid0 u0new p hndU).mp hp with h1 | ⟨h1, h2⟩
    · subst h1
      rw [htnew] at ht
      cases ht
    · have hold : lookupA m t = some p.1 := by
        apply hc1 p h1 t
        rw [mem_toList_iff]
        exact ht
      by_cases htg : t = tg
      · exfalso
        rw [htg, hm0] at hold
        cases hold
        exact h2 rfl
      · rw [lookupA_erase_ne m tg t (fun hc => htg hc.symm)]
        exact hold
  · intro q hq
    obtain ⟨hq1, hq2⟩ := (mem_eraseA_iff m tg q).mp hq
    obtain ⟨u, hu1, hu2⟩ := hc2 q hq1
    rw [mem_toList_iff] at hu1
    by_cases hne : q.2 = uid0
    · exfalso
      rw [hne, hu0] at hu1
      cases hu1
      rw [htold] at hu2
      cases hu2
      exact hq2 rfl
    · refine ⟨u, ?_, hu2⟩
      rw [mem_toList_iff,
          lookupA_insert_ne users uid0 q.2 u0new (fun hc => hne hc.symm)]
      exact hu1

/-! ## C2: chat-index consistency -/

/-- C2 (amended): chat-index consistency holds after the startup rebuild
(given distinct keys and at most one user per chat-id), and is preserved
by the admin /link and /unlink operations, by unlink approval, and by
registration approval (for a fresh Jellyfin id); link approval preserves
it only under the extra premise that the requester's chat-id is still
unmapped — the handler does not re-check this, and an admin /link
interleaved between a link request and its approval leaves a user whose
set chat-id points at a different account (see the counterexample). -/
theorem chat_index_consistency (st : BotState) (users0 : AMap String UserRec)
    (m0 : AMap Int String) (uname : String) (tg uid2 : Int) (env : JellyEnv)
    (hndU0 : keysNodup users0) (hndM0 : keysNodup m0) (huniq0 : tidsUnique users0)
    (hndU : keysNodup st.users) (hndM : keysNodup st.telegram_to_userid)
    (hcons : chatIndexConsistent st.users st.telegram_to_userid) :
    chatIndexConsistent users0 (rebuild_telegram_mapping users0 m0) ∧
    chatIndexConsistent (handle_admin_link st uname tg).1.users
      (handle_admin_link st uname tg).1.telegram_to_userid ∧
    chatIndexConsistent (handle_admin_unlink st uname).1.users
      (handle_admin_unlink st uname).1.telegram_to_userid ∧
    chatIndexConsistent (unlink_approve st uid2).1.users
      (unlink_approve st uid2).1.telegram_to_userid ∧
    ((∀ jid, env.newUserId = some jid → lookupA st.users jid = none) →
      chatIndexConsistent (approve st env uid2).1.users
        (approve st env uid2).1.telegram_to_userid) ∧
    (lookupA st.telegram_to_userid uid2 = none →
      chatIndexConsistent (link_approve st uid2).1.users
        (link_approve st uid2).1.telegram_to_userid) := by
  refine ⟨rebuild_telegram_mapping_consistent users0 m0 hndU0 hndM0 huniq0,
    ?_, ?_, ?_, ?_, ?_⟩
  · unfold handle_admin_link
    cases hg : get_user_by_username st uname with
    | none => exact hcons
    | some q =>
        obtain ⟨target_uid, target⟩ := q
        simp only
        by_cases h1 : target.telegram_id ≠ none
        · rw [if_pos h1]
          exact hcons
        · rw [if_neg h1]
          have htid_none : target.telegram_id = none := not_not.mp h1
          cases hg2 : get_user_by_telegram_id st tg with
          | some q2 => exact hcons
          | none =>
              have hu0 : lookupA st.users target_uid = some target :=
                get_user_by_username_users st uname target_uid target hg
              apply consistent_setlink_core st.users st.telegram_to_userid
                target_uid _ tg hndU hndM hcons rfl
              · intro q hq hcq
                obtain ⟨u, hu1, hu2⟩ := hcons.2 q hq
                rw [mem_toList_iff] at hu1
                rw [hcq, hu0] at hu1
                cases hu1
                rw [htid_none] at hu2
                cases hu2
              · intro uidX hX
                exact get_user_by_telegram_id_none st tg uidX hg2 hX
  · unfold handle_admin_unlink
    cases hg : get_user_by_username st uname with
    | none => exact hcons
    | some q =>
        obtain ⟨target_uid, target⟩ := q
        simp only
        cases htd : target.telegram_id with
        | none => exact hcons
        | some old_tg =>
            have hu0 : lookupA st.users target_uid = some target :=
              get_user_by_username_users st uname target_uid target hg
            exact consistent_unsetlink_core st.users st.telegram_to_userid
              target_uid target _ old_tg hndU hcons hu0 htd rfl
  · unfold unlink_approve
    cases hg : get_user_by_telegram_id st uid2 with
    | none => exact hcons
    | some q =>
        obtain ⟨user_id, u⟩ := q
        simp only
        obtain ⟨hm1, hu1⟩ := get_user_by_telegram_id_spec st uid2 user_id u hg
        have htold : u.telegram_id = some uid2 := by
          have hmem : (uid2, user_id) ∈ st.telegram_to_userid :=
            mem_of_lookupA_eq_some st.telegram_to_userid uid2 user_id hm1
          obtain ⟨u', hu'1, hu'2⟩ := hcons.2 (uid2, user_id) hmem
          rw [mem_toList_iff] at hu'1
          rw [hu1] at hu'1
          cases hu'1
          exact hu'2
        exact consistent_unsetlink_core st.users st.telegram_to_userid
          user_id u _ uid2 hndU hcons hu1 htold rfl
  · intro hfresh
    unfold approve
    cases hp : lookupA st.pending uid2 with
    | none => exact hcons
    | some p =>
        cases hg2 : get_user_by_telegram_id st uid2 with
        | some q => exact hcons
        | none =>
            cases hcreate : env.createOk with
            | false => simp only [hcreate, if_pos rfl]; exact hcons
            | true =>
                simp only [hcreate]
                rw [if_neg (by simp)]
                cases hn : env.newUserId with
                | none => exact hcons
                | some jid =>
                    apply consistent_setlink_core st.users st.telegram_to_userid
                      jid _ uid2 hndU hndM hcons rfl
                    · intro q hq hcq
                      obtain ⟨u, hu1, hu2⟩ := hcons.2 q hq
                      rw [mem_toList_iff] at hu1
                      rw [hcq, hfresh jid hn] at hu1
                      cases hu1
                    · intro uidX hX
                      exact get_user_by_telegram_id_none st uid2 uidX hg2 hX
  · intro hfree0
    unfold link_approve
    cases hp : lookupA st.pending uid2 with
    | none => exact hcons
    | some p =>
        simp only
        by_cases hk : p.kind ≠ PendKind.link
        · rw [if_pos hk]
          exact hcons
        · rw [if_neg hk]
          cases hjid : p.jellyfin_user_id with
          | none => exact hcons
          | some jid =>
              dsimp only
              cases hu : lookupA st.users jid with
              | none => exact hcons
              | some target =>
                  dsimp only
                  by_cases hl : target.telegram_id ≠ none
                  · rw [if_pos hl]
                    exact hcons
                  · rw [if_neg hl]
                    have htid_none : target.telegram_id = none := not_not.mp hl
                    apply consistent_setlink_core st.users st.telegram_to_userid
                      jid _ uid2 hndU hndM hcons rfl
                    · intro q hq hcq
                      obtain ⟨u, hu1, hu2⟩ := hcons.2 q hq
                      rw [mem_toList_iff] at hu1
                      rw [hcq, hu] at hu1
                      cases hu1
                      rw [htid_none] at hu2
                      cases hu2
                    · intro uidX hX
                      rw [hfree0] at hX
                      cases hX

/-- Witness for the amended C2 theorem on a concrete two-user registry
(with a stale on-disk mapping entry for the rebuild). -/
theorem chat_index_consistency_witness :
    chatIndexConsistent stTwo.users (rebuild_telegram_mapping stTwo.users [(99, "dead")]) ∧
    chatIndexConsistent (handle_admin_link stTwo "xuser" 7).1.users
      (handle_admin_link stTwo "xuser" 7).1.telegram_to_userid ∧
    chatIndexConsistent (handle_admin_unlink stTwo "xuser").1.users
      (handle_admin_unlink stTwo "xuser").1.telegram_to_userid ∧
    chatIndexConsistent (unlink_approve stTwo 7).1.users
      (unlink_approve stTwo 7).1.telegram_to_userid ∧
    chatIndexConsistent (approve stTwo envOkJ 7).1.users
      (approve stTwo envOkJ 7).1.telegram_to_userid ∧
    chatIndexConsistent (link_approve stTwo 7).1.users
      (link_approve stTwo 7).1.telegram_to_userid := by
  have h := chat_index_consistency stTwo stTwo.users [(99, "dead")] "xuser" 7 7 envOkJ
    (by decide) (by decide) (by decide) (by decide) (by decide) (by decide)
  refine ⟨h.1, h.2.1, h.2.2.1, h.2.2.2.1, h.2.2.2.2.1 ?_, h.2.2.2.2.2 (by decide)⟩
  intro jid hj
  have hj' : some "j1" = some jid := hj
  injection hj' with h2
  rw [← h2]
  decide

/-- Counterexample to C2 as stated: starting from a consistent state,
user 7 requests a link to `xuser`, an admin manually links telegram 7 to
`yuser` (all guards pass), and a second admin approves the still-pending
link request; afterwards `yuser` has chat-id 7 set but the index maps 7
to `jX` — the invariant is broken after a mutating operation. -/
theorem link_approve_race_breaks_index_counterexample :
    chatIndexConsistent stTwo.users stTwo.telegram_to_userid ∧
    (handle_linkme stTwo 10 7 "xuser").2 = LinkmeOutcome.submitted ∧
    (handle_admin_link stRace1 "yuser" 7).2 = AdminLinkOutcome.linked ∧
    (link_approve stRace2 7).2 = LinkApproveOutcome.linked ∧
    lookupA stRace3.users "jY" = some (UserRec.mk "yuser" (some 7) false Role.regular) ∧
    lookupA stRace3.telegram_to_userid 7 = some "jX" ∧
    ¬ chatIndexConsistent stRace3.users stRace3.telegram_to_userid := by
  decide
